import Mathlib

/-!
Shallow embedding of the Smart Bell System firmware (src/SmartBell.ino).

The global mutable state of the sketch (`presets`, `presetCount`,
`activePresetIndex`, `lastDay`, `bellDuration`) is modelled as a `Store`
record; the fixed-size arrays with their counts become lists whose length
plays the role of the count.  Machine `int` fields become `Int`,
`unsigned long` millisecond clocks become `Nat` (the claims only concern
runs with a monotonically increasing clock far below the 32-bit wrap, so
modular wraparound never fires on the inputs considered here).
Side effects are made explicit: relay pulses and `saveData()` calls are
returned as event data alongside the new state.
-/

namespace SmartBell

/-- System constraint `MAX_PRESETS` from the sketch. -/
def MAX_PRESETS : Nat := 15

/-- System constraint `MAX_BELLS_PER_PRESET` from the sketch. -/
def MAX_BELLS_PER_PRESET : Nat := 15

/-- Constant `DEFAULT_RELAY_DURATION` (3000 ms). -/
def DEFAULT_RELAY_DURATION : Int := 3000

/-- Source `struct Bell`: `int hour; int minute; bool triggeredToday;`. -/
structure Bell where
  hour : Int
  minute : Int
  triggeredToday : Bool
deriving Repr, DecidableEq

/-- Source `struct Preset` (`String name; Bell bells[]; int bellCount;`) —
the array together with `bellCount` is modelled as the list `bells`. -/
structure Preset where
  name : String
  bells : List Bell
deriving Repr, DecidableEq

/-- The sketch's globals `presets`/`presetCount`, `activePresetIndex`,
`lastDay` and `bellDuration` gathered into one record. -/
structure Store where
  presets : List Preset
  activePresetIndex : Int
  lastDay : Int
  bellDuration : Int
deriving Repr, DecidableEq

/-- Global state right after boot, before `loadData()`:
`presetCount = 0`, `activePresetIndex = -1`, `lastDay = -1`,
`bellDuration = DEFAULT_RELAY_DURATION`. -/
def initialStore : Store :=
  { presets := [], activePresetIndex := -1, lastDay := -1,
    bellDuration := DEFAULT_RELAY_DURATION }

/-- An RTC reading (`DateTime` of RTClib); only the fields the sketch
reads are kept. -/
structure DateTime where
  hour : Int
  minute : Int
  second : Int
  day : Int
  month : Int
  year : Int
deriving Repr, DecidableEq

/-- Duration resolution at the head of `triggerBell(int duration)`:
`if (duration == 0) duration = bellDuration;`. -/
def resolvePulseDuration (duration bellDuration : Int) : Int :=
  if duration = 0 then bellDuration else duration

/-! ## Bell Scheduler (`checkBells`) -/

/-- Day-rollover body of `checkBells`: clear `triggeredToday` on every
bell of every preset. -/
def resetAllTriggers (ps : List Preset) : List Preset :=
  ps.map fun p => { p with bells := p.bells.map fun b => { b with triggeredToday := false } }

/-- The match condition of `checkBells` for one bell:
`!bell->triggeredToday && bell->hour == now.hour() && bell->minute == now.minute()`. -/
def bellMatches (b : Bell) (h m : Int) : Prop :=
  b.triggeredToday = false ∧ b.hour = h ∧ b.minute = m

instance (b : Bell) (h m : Int) : Decidable (bellMatches b h m) := by
  unfold bellMatches; infer_instance

/-- The match loop of `checkBells` over the active preset's bells,
carrying the index of the current bell.  A matching bell produces a
relay pulse `(index, duration)` — `triggerBell()` is called with
argument `0`, so the pulse runs for the configured `bellDuration` —
and has its flag set.  Each match also issues one `saveData()` call,
so the tick's save count grows with the pulse list. -/
def runBells : List Bell → Int → Int → Nat → Int → List Bell × List (Nat × Int)
  | [], _, _, _, _ => ([], [])
  | b :: rest, h, m, i, dur =>
    let r := runBells rest h m (i + 1) dur
    if bellMatches b h m then
      ({ b with triggeredToday := true } :: r.1, (i, resolvePulseDuration 0 dur) :: r.2)
    else
      (b :: r.1, r.2)

/-- Result of one `checkBells()` call: the new store, the relay pulses
issued by `triggerBell()` (bell index in the active preset, pulse
duration), and the number of `saveData()` calls. -/
structure TickResult where
  store : Store
  pulses : List (Nat × Int)
  saves : Nat
deriving Repr, DecidableEq

/-- Day-rollover step of `checkBells` (`if (lastDay != now.day())`):
returns the updated store and the number of `saveData()` calls it made. -/
def rolloverPhase (now : DateTime) (s : Store) : Store × Nat :=
  if s.lastDay ≠ now.day then
    ({ s with lastDay := now.day, presets := resetAllTriggers s.presets }, 1)
  else (s, 0)

/-- Match-evaluation step of `checkBells`
(`if (activePresetIndex >= 0 && activePresetIndex < presetCount)`). -/
def matchPhase (now : DateTime) (s : Store) : TickResult :=
  if 0 ≤ s.activePresetIndex ∧ s.activePresetIndex < (s.presets.length : Int) then
    match s.presets[s.activePresetIndex.toNat]? with
    | some p =>
      let r := runBells p.bells now.hour now.minute 0 s.bellDuration
      { store := { s with presets := s.presets.set s.activePresetIndex.toNat { p with bells := r.1 } },
        pulses := r.2,
        saves := r.2.length }
    | none => { store := s, pulses := [], saves := 0 }
  else
    { store := s, pulses := [], saves := 0 }

/-- Function `checkBells()`.  The `clock` argument models `rtc.begin()` /
`rtc.now()`: `none` is an unavailable clock (`if (!rtc.begin()) return;`).
Otherwise the tick first handles day rollover and then evaluates the
active preset's bells. -/
def checkBells (clock : Option DateTime) (s : Store) : TickResult :=
  match clock with
  | none => { store := s, pulses := [], saves := 0 }
  | some now =>
    let roll := rolloverPhase now s
    let r := matchPhase now roll.1
    { store := r.store, pulses := r.pulses, saves := roll.2 + r.saves }

/-- The active preset, when `activePresetIndex >= 0 && activePresetIndex < presetCount`. -/
def activePreset? (s : Store) : Option Preset :=
  if 0 ≤ s.activePresetIndex ∧ s.activePresetIndex < (s.presets.length : Int) then
    s.presets[s.activePresetIndex.toNat]?
  else none

/-- Bell `i` of the active preset, if any. -/
def getActiveBell? (s : Store) (i : Nat) : Option Bell :=
  (activePreset? s).bind fun p => p.bells[i]?

/-! ## Persistence Gateway (`saveData` / `loadData`)

`saveData()` serialises the store into `/config.json`:
fields `presetCount`, `activePreset`, `bellDuration`, and a `presets`
array whose entries carry `name`, `bellCount` and a `bells` array of
`{hour, minute, triggered}`.  The document is modelled structurally. -/

/-- One entry of a preset's `bells` array in the JSON document. -/
structure BellDoc where
  hour : Int
  minute : Int
  triggered : Bool
deriving Repr, DecidableEq

/-- One entry of the `presets` array in the JSON document. -/
structure PresetDoc where
  name : String
  bellCount : Int
  bells : List BellDoc
deriving Repr, DecidableEq

/-- The whole `/config.json` document.  Note that `lastDay` is NOT part
of the document: `saveData()` never writes it and `loadData()` never
reads it. -/
structure ConfigDoc where
  presetCount : Int
  activePreset : Int
  bellDuration : Int
  presets : List PresetDoc
deriving Repr, DecidableEq

/-- Function `saveData()`: serialise the current globals. -/
def saveData (s : Store) : ConfigDoc :=
  { presetCount := (s.presets.length : Int),
    activePreset := s.activePresetIndex,
    bellDuration := s.bellDuration,
    presets := s.presets.map fun p =>
      { name := p.name,
        bellCount := (p.bells.length : Int),
        bells := p.bells.map fun b =>
          { hour := b.hour, minute := b.minute, triggered := b.triggeredToday } } }

/-- Default used when the loader indexes past the end of a JSON array
(ArduinoJson then yields null objects whose member lookups default);
documents produced by `saveData` never reach this case because there
`bellCount` equals the array length. -/
def nullBellDoc : BellDoc := { hour := 0, minute := 0, triggered := false }

/-- Null-object default for a missing preset entry (see `nullBellDoc`). -/
def nullPresetDoc : PresetDoc := { name := "", bellCount := 0, bells := [] }

/-- One bell read back by `loadData()`. -/
def loadBell (bd : BellDoc) : Bell :=
  { hour := bd.hour, minute := bd.minute, triggeredToday := bd.triggered }

/-- The inner bell loop of `loadData()`:
`for (j = 0; j < bellCount && j < MAX_BELLS_PER_PRESET; j++)`. -/
def loadPreset (pd : PresetDoc) : Preset :=
  { name := pd.name,
    bells := (List.range (min pd.bellCount.toNat MAX_BELLS_PER_PRESET)).map fun j =>
      loadBell (pd.bells.getD j nullBellDoc) }

/-- Function `loadData()` applied to a successfully parsed document.  `s` is the
global state before the call (a fresh boot passes `initialStore`): the
loader overwrites `presetCount`, `activePresetIndex`, `bellDuration` and
the first `min(presetCount, MAX_PRESETS)` presets, but `lastDay` is left
as it was — it is not part of the document. -/
def loadData (doc : ConfigDoc) (s : Store) : Store :=
  { presets := (List.range (min doc.presetCount.toNat MAX_PRESETS)).map fun i =>
      loadPreset (doc.presets.getD i nullPresetDoc),
    activePresetIndex := doc.activePreset,
    bellDuration := doc.bellDuration,
    lastDay := s.lastDay }

/-! ## Emergency Controller (`handleEmergency`) -/

/-- The emergency globals: `emergencyActive`, `emergencyStartTime`,
`emergencyPhase`. -/
structure EmergencyState where
  emergencyActive : Bool
  emergencyStartTime : Nat
  emergencyPhase : Int
deriving Repr, DecidableEq

/-- Emergency activation in `handleButtons()` on a confirmed falling
edge: `emergencyActive = true; emergencyStartTime = millis();
emergencyPhase = 0;`. -/
def activateEmergency (t : Nat) : EmergencyState :=
  { emergencyActive := true, emergencyStartTime := t, emergencyPhase := 0 }

/-- Function `handleEmergency()` at millisecond clock `t`.  Returns the new state
and the relay level written this tick (`true` = HIGH).  Phases
0,2,4,6,8 drive the relay HIGH and advance after 5000 ms; phases
1,3,5,7 drive it LOW and advance after 1000 ms; at phase 9 the relay is
forced LOW and `emergencyActive` is cleared. -/
def handleEmergency (t : Nat) (e : EmergencyState) : EmergencyState × Bool :=
  let elapsed := t - e.emergencyStartTime
  if e.emergencyPhase < 9 then
    if e.emergencyPhase % 2 = 0 then
      if 5000 ≤ elapsed then
        ({ e with emergencyStartTime := t, emergencyPhase := e.emergencyPhase + 1 }, true)
      else (e, true)
    else
      if 1000 ≤ elapsed then
        ({ e with emergencyStartTime := t, emergencyPhase := e.emergencyPhase + 1 }, false)
      else (e, false)
  else
    ({ e with emergencyActive := false }, false)

/-- Iterate `handleEmergency` over a list of tick clocks, collecting the
relay levels written. -/
def emRun : EmergencyState → List Nat → EmergencyState × List Bool
  | e, [] => (e, [])
  | e, t :: ts =>
    let r := handleEmergency t e
    let rest := emRun r.1 ts
    (rest.1, r.2 :: rest.2)

/-- Number of phase transitions along a run of `handleEmergency`. -/
def emTransitions : EmergencyState → List Nat → Nat
  | _, [] => 0
  | e, t :: ts =>
    let e' := (handleEmergency t e).1
    (if e'.emergencyPhase ≠ e.emergencyPhase then 1 else 0) + emTransitions e' ts

/-! ## CRUD handlers -/

/-- Handler `handleAddPreset()`: rejected when `presetCount >= MAX_PRESETS` or
the name is empty; otherwise appends an empty preset.  The Bool is
whether the request succeeded (HTTP 200). -/
def handleAddPreset (name : String) (s : Store) : Store × Bool :=
  if MAX_PRESETS ≤ s.presets.length then (s, false)
  else if name.length = 0 then (s, false)
  else ({ s with presets := s.presets ++ [{ name := name, bells := [] }] }, true)

/-- Handler `handleDeletePreset()`: rejected when `id < 0 || id >= presetCount`;
otherwise shifts later presets down one slot and adjusts
`activePresetIndex` (`== id` → `-1`; `> id` → decrement; else keep). -/
def handleDeletePreset (id : Int) (s : Store) : Store × Bool :=
  if id < 0 ∨ (s.presets.length : Int) ≤ id then (s, false)
  else
    ({ s with
        presets := s.presets.eraseIdx id.toNat,
        activePresetIndex :=
          if s.activePresetIndex = id then -1
          else if id < s.activePresetIndex then s.activePresetIndex - 1
          else s.activePresetIndex }, true)

/-- Handler `handleAddBell()`: validates the preset id, the per-preset capacity
and the time bounds (`0..23`, `0..59`); on success appends a bell with
`triggeredToday = false`. -/
def handleAddBell (presetId hour minute : Int) (s : Store) : Store × Bool :=
  if presetId < 0 ∨ (s.presets.length : Int) ≤ presetId then (s, false)
  else
    match s.presets[presetId.toNat]? with
    | none => (s, false)
    | some p =>
      if MAX_BELLS_PER_PRESET ≤ p.bells.length then (s, false)
      else if hour < 0 ∨ 23 < hour ∨ minute < 0 ∨ 59 < minute then (s, false)
      else
        let p' : Preset := { p with bells := p.bells ++ [{ hour := hour, minute := minute, triggeredToday := false }] }
        ({ s with presets := s.presets.set presetId.toNat p' }, true)

/-- Handler `handleDeleteBell()`: validates both ids, then shifts later bells
down one slot. -/
def handleDeleteBell (presetId bellId : Int) (s : Store) : Store × Bool :=
  if presetId < 0 ∨ (s.presets.length : Int) ≤ presetId then (s, false)
  else
    match s.presets[presetId.toNat]? with
    | none => (s, false)
    | some p =>
      if bellId < 0 ∨ (p.bells.length : Int) ≤ bellId then (s, false)
      else
        let p' : Preset := { p with bells := p.bells.eraseIdx bellId.toNat }
        ({ s with presets := s.presets.set presetId.toNat p' }, true)

/-- Handler `handleSetActive()`: accepts `-1 <= id < presetCount`. -/
def handleSetActive (id : Int) (s : Store) : Store × Bool :=
  if id < -1 ∨ (s.presets.length : Int) ≤ id then (s, false)
  else ({ s with activePresetIndex := id }, true)

/-- Handler `handleSetDuration()`: rejects a duration outside `[100, 30000]` ms
(the value is never clamped); an accepted value is stored and saved.
The Nat counts the `saveData()` calls made by the handler. -/
def handleSetDuration (duration : Int) (s : Store) : Store × Bool × Nat :=
  if duration < 100 ∨ 30000 < duration then (s, false, 0)
  else ({ s with bellDuration := duration }, true, 1)

/-! ## Control loop (`loop`, `handleButtons`) -/

/-- One tick's raw pin samples.  A `digitalRead` is `true` for HIGH
(released, the pins use `INPUT_PULLUP`) and `false` for LOW (pressed).
The `...Read2` fields are the confirming re-samples the sketch takes
after its 50 ms debounce delay inside `handleButtons()`. -/
structure ButtonInputs where
  emergencyRead : Bool
  emergencyRead2 : Bool
  manualRead : Bool
  manualRead2 : Bool
  displayRead : Bool
deriving Repr, DecidableEq

/-- The full mutable state touched by `loop()` (store, emergency
globals, and the button/debounce globals of `handleButtons`). -/
structure SysState where
  store : Store
  em : EmergencyState
  lastEmergencyBtnState : Bool
  lastManualBellState : Bool
  displayToggleState : Bool
  lastDisplayToggleState : Bool
  lastDebounceTime : Nat
deriving Repr, DecidableEq

/-- Function `handleButtons()` at millisecond clock `t`.  Returns the new state
and the list of relay pulse durations issued by the manual-bell path
(`triggerBell()` with argument 0, i.e. the configured `bellDuration`).
The activation branch for the emergency button requires
`!emergencyActive`; the manual-bell branch has no such guard. -/
def handleButtons (t : Nat) (inp : ButtonInputs) (s : SysState) : SysState × List Int :=
  let em' :=
    if inp.emergencyRead = false ∧ s.lastEmergencyBtnState = true ∧ s.em.emergencyActive = false
        ∧ inp.emergencyRead2 = false then
      activateEmergency t
    else s.em
  let lastDebounce' :=
    if inp.displayRead ≠ s.lastDisplayToggleState then t else s.lastDebounceTime
  let displayState' :=
    if 50 < t - lastDebounce' ∧ inp.displayRead ≠ s.displayToggleState then inp.displayRead
    else s.displayToggleState
  let manualPulses :=
    if inp.manualRead = false ∧ s.lastManualBellState = true ∧ inp.manualRead2 = false then
      [resolvePulseDuration 0 s.store.bellDuration]
    else []
  ({ store := s.store, em := em',
     lastEmergencyBtnState := inp.emergencyRead,
     lastManualBellState := inp.manualRead,
     displayToggleState := displayState',
     lastDisplayToggleState := inp.displayRead,
     lastDebounceTime := lastDebounce' },
   manualPulses)

/-- Observable side effects of one `loop()` iteration.
`emergencyWrite` is the relay level written by `handleEmergency` when
it ran this tick; `scheduledPulses` and `saves` come from `checkBells`.
(The web-server and display collaborators are outside the modelled
core, per the spec's scope.) -/
structure LoopEvents where
  manualPulses : List Int
  scheduledPulses : List (Nat × Int)
  emergencyWrite : Option Bool
  saves : Nat
deriving Repr, DecidableEq

/-- One iteration of `loop()`: `handleButtons()` first, then
`handleEmergency()` if `emergencyActive`, else `checkBells()`. -/
def loopStep (t : Nat) (inp : ButtonInputs) (clock : Option DateTime) (s : SysState) :
    SysState × LoopEvents :=
  let hb := handleButtons t inp s
  if hb.1.em.emergencyActive then
    let he := handleEmergency t hb.1.em
    ({ hb.1 with em := he.1 },
     { manualPulses := hb.2, scheduledPulses := [],
       emergencyWrite := some he.2, saves := 0 })
  else
    let r := checkBells clock hb.1.store
    ({ hb.1 with store := r.store },
     { manualPulses := hb.2, scheduledPulses := r.pulses,
       emergencyWrite := none, saves := r.saves })

/-! ## Store invariants -/

/-- The Schedule Store invariants: at most `MAX_PRESETS` presets, at
most `MAX_BELLS_PER_PRESET` bells per preset, and `activePresetIndex`
either `-1` ("none") or a valid index. -/
def storeInv (s : Store) : Prop :=
  s.presets.length ≤ MAX_PRESETS ∧
  (∀ p ∈ s.presets, p.bells.length ≤ MAX_BELLS_PER_PRESET) ∧
  (s.activePresetIndex = -1 ∨
    (0 ≤ s.activePresetIndex ∧ s.activePresetIndex < (s.presets.length : Int)))

instance (s : Store) : Decidable (storeInv s) := by
  unfold storeInv; infer_instance

/-! ## Lemmas about the match loop -/

theorem runBells_length (l : List Bell) (h m : Int) (k : Nat) (d : Int) :
    (runBells l h m k d).1.length = l.length := by
  induction l generalizing k with
  | nil => rfl
  | cons b rest ih =>
    by_cases hb : bellMatches b h m <;> simp [runBells, hb, ih]

theorem runBells_getElem? (l : List Bell) (h m : Int) (k : Nat) (d : Int) (j : Nat) :
    (runBells l h m k d).1[j]? =
      (l[j]?).map fun b =>
        if bellMatches b h m then { b with triggeredToday := true } else b := by
  induction l generalizing k j with
  | nil => simp [runBells]
  | cons b rest ih =>
    cases j with
    | zero => by_cases hb : bellMatches b h m <;> simp [runBells, hb]
    | succ j => by_cases hb : bellMatches b h m <;> simp [runBells, hb, ih]

theorem runBells_fst_ge (l : List Bell) (h m : Int) (k : Nat) (d : Int) :
    ∀ x ∈ (runBells l h m k d).2, k ≤ x.1 := by
  induction l generalizing k with
  | nil => simp [runBells]
  | cons b rest ih =>
    intro x hx
    by_cases hb : bellMatches b h m
    · simp [runBells, hb] at hx
      rcases hx with rfl | hx
      · exact Nat.le_refl k
      · exact Nat.le_of_succ_le (ih (k + 1) x hx)
    · simp [runBells, hb] at hx
      exact Nat.le_of_succ_le (ih (k + 1) x hx)

theorem runBells_count_lt (l : List Bell) (h m : Int) (k : Nat) (d : Int) (j : Nat)
    (hj : j < k) : ((runBells l h m k d).2.map Prod.fst).count j = 0 := by
  apply List.count_eq_zero_of_not_mem
  intro hmem
  obtain ⟨x, hx, hxj⟩ := List.mem_map.1 hmem
  have := runBells_fst_ge l h m k d x hx
  omega

theorem runBells_count (l : List Bell) (h m : Int) (k : Nat) (d : Int) (j : Nat) (b : Bell)
    (hg : l[j]? = some b) :
    ((runBells l h m k d).2.map Prod.fst).count (k + j) =
      if bellMatches b h m then 1 else 0 := by
  induction l generalizing k j with
  | nil => simp at hg
  | cons hd tl ih =>
    cases j with
    | zero =>
      simp only [List.getElem?_cons_zero, Option.some.injEq] at hg
      subst hg
      have h0 : ((runBells tl h m (k + 1) d).2.map Prod.fst).count k = 0 :=
        runBells_count_lt tl h m (k + 1) d k (Nat.lt_succ_self k)
      by_cases hb : bellMatches hd h m
      · simp [runBells, hb, h0]
      · simp [runBells, hb, h0]
    | succ j =>
      simp only [List.getElem?_cons_succ] at hg
      have hk : k + (j + 1) = (k + 1) + j := by omega
      by_cases hb : bellMatches hd h m
      · simp only [runBells, if_pos hb, List.map_cons]
        rw [List.count_cons_of_ne (by omega), hk]
        exact ih (k + 1) j hg
      · simp only [runBells, if_neg hb]
        rw [hk]
        exact ih (k + 1) j hg

theorem runBells_snd (l : List Bell) (h m : Int) (k : Nat) (d : Int) :
    ∀ x ∈ (runBells l h m k d).2, x.2 = resolvePulseDuration 0 d := by
  induction l generalizing k with
  | nil => simp [runBells]
  | cons b rest ih =>
    intro x hx
    by_cases hb : bellMatches b h m
    · simp [runBells, hb] at hx
      rcases hx with rfl | hx
      · rfl
      · exact ih (k + 1) x hx
    · simp [runBells, hb] at hx
      exact ih (k + 1) x hx

/-! ## Lemmas about the scheduler phases -/

theorem activePreset?_eq_some {s : Store} {p : Preset} :
    activePreset? s = some p ↔
      (0 ≤ s.activePresetIndex ∧ s.activePresetIndex < (s.presets.length : Int)) ∧
        s.presets[s.activePresetIndex.toNat]? = some p := by
  unfold activePreset?
  split
  · simp_all
  · simp_all

theorem getActiveBell?_eq_some {s : Store} {i : Nat} {b : Bell} :
    getActiveBell? s i = some b ↔
      ∃ p, activePreset? s = some p ∧ p.bells[i]? = some b := by
  simp [getActiveBell?, Option.bind_eq_some]

theorem matchPhase_eq_of_active {s : Store} {p : Preset} (now : DateTime)
    (hp : activePreset? s = some p) :
    matchPhase now s =
      { store := { s with presets := s.presets.set s.activePresetIndex.toNat { p with bells := (runBells p.bells now.hour now.minute 0 s.bellDuration).1 } },
        pulses := (runBells p.bells now.hour now.minute 0 s.bellDuration).2,
        saves := (runBells p.bells now.hour now.minute 0 s.bellDuration).2.length } := by
  obtain ⟨hA, hg⟩ := activePreset?_eq_some.1 hp
  unfold matchPhase
  rw [if_pos hA, hg]

theorem matchPhase_activeIndex (now : DateTime) (s : Store) :
    (matchPhase now s).store.activePresetIndex = s.activePresetIndex := by
  unfold matchPhase
  split
  · split <;> rfl
  · rfl

theorem matchPhase_lastDay (now : DateTime) (s : Store) :
    (matchPhase now s).store.lastDay = s.lastDay := by
  unfold matchPhase
  split
  · split <;> rfl
  · rfl

theorem matchPhase_bellDuration (now : DateTime) (s : Store) :
    (matchPhase now s).store.bellDuration = s.bellDuration := by
  unfold matchPhase
  split
  · split <;> rfl
  · rfl

theorem matchPhase_saves_eq (now : DateTime) (s : Store) :
    (matchPhase now s).saves = (matchPhase now s).pulses.length := by
  unfold matchPhase
  split
  · split <;> rfl
  · rfl

theorem matchPhase_count {s : Store} {i : Nat} {b : Bell} (now : DateTime)
    (hb : getActiveBell? s i = some b) :
    ((matchPhase now s).pulses.map Prod.fst).count i =
      if bellMatches b now.hour now.minute then 1 else 0 := by
  obtain ⟨p, hp, hbi⟩ := getActiveBell?_eq_some.1 hb
  rw [matchPhase_eq_of_active now hp]
  have := runBells_count p.bells now.hour now.minute 0 s.bellDuration i b hbi
  simpa using this

theorem getActiveBell?_matchPhase {s : Store} {i : Nat} {b : Bell} (now : DateTime)
    (hb : getActiveBell? s i = some b) :
    getActiveBell? (matchPhase now s).store i =
      some (if bellMatches b now.hour now.minute then { b with triggeredToday := true } else b) := by
  obtain ⟨p, hp, hbi⟩ := getActiveBell?_eq_some.1 hb
  obtain ⟨hA, hg⟩ := activePreset?_eq_some.1 hp
  have hlt : s.activePresetIndex.toNat < s.presets.length := by omega
  rw [matchPhase_eq_of_active now hp]
  apply getActiveBell?_eq_some.2
  refine ⟨{ p with bells := (runBells p.bells now.hour now.minute 0 s.bellDuration).1 },
    activePreset?_eq_some.2 ⟨?_, ?_⟩, ?_⟩
  · dsimp only
    simpa [List.length_set] using hA
  · dsimp only
    exact List.getElem?_set_self hlt
  · dsimp only
    rw [runBells_getElem?, hbi]
    rfl

theorem matchPhase_pulse_duration (now : DateTime) (s : Store) :
    ∀ x ∈ (matchPhase now s).pulses, x.2 = s.bellDuration := by
  unfold matchPhase
  split
  · split
    · intro x hx
      have := runBells_snd _ now.hour now.minute 0 s.bellDuration x (by simpa using hx)
      simpa [resolvePulseDuration] using this
    · simp
  · simp

theorem rolloverPhase_same {s : Store} {now : DateTime} (h : s.lastDay = now.day) :
    rolloverPhase now s = (s, 0) := by
  unfold rolloverPhase
  simp [h]

theorem rolloverPhase_diff {s : Store} {now : DateTime} (h : s.lastDay ≠ now.day) :
    rolloverPhase now s =
      ({ s with lastDay := now.day, presets := resetAllTriggers s.presets }, 1) := by
  unfold rolloverPhase
  simp [h]

theorem rolloverPhase_lastDay (now : DateTime) (s : Store) :
    (rolloverPhase now s).1.lastDay = now.day := by
  unfold rolloverPhase
  split
  · rfl
  · simp_all

theorem rolloverPhase_activeIndex (now : DateTime) (s : Store) :
    (rolloverPhase now s).1.activePresetIndex = s.activePresetIndex := by
  unfold rolloverPhase
  split <;> rfl

theorem rolloverPhase_bellDuration (now : DateTime) (s : Store) :
    (rolloverPhase now s).1.bellDuration = s.bellDuration := by
  unfold rolloverPhase
  split <;> rfl

theorem getActiveBell?_resetAll (s : Store) (d : Int) (i : Nat) :
    getActiveBell? { s with lastDay := d, presets := resetAllTriggers s.presets } i =
      (getActiveBell? s i).map fun b => { b with triggeredToday := false } := by
  unfold getActiveBell? activePreset? resetAllTriggers
  by_cases hA : 0 ≤ s.activePresetIndex ∧ s.activePresetIndex < (s.presets.length : Int)
  · simp only [List.length_map]
    rw [if_pos hA, if_pos hA]
    cases hg : s.presets[s.activePresetIndex.toNat]? with
    | none => simp [hg]
    | some p => simp [hg]
  · simp only [List.length_map]
    rw [if_neg hA, if_neg hA]
    rfl

theorem checkBells_none (s : Store) :
    checkBells none s = { store := s, pulses := [], saves := 0 } := rfl

theorem checkBells_some (now : DateTime) (s : Store) :
    checkBells (some now) s =
      { store := (matchPhase now (rolloverPhase now s).1).store,
        pulses := (matchPhase now (rolloverPhase now s).1).pulses,
        saves := (rolloverPhase now s).2 + (matchPhase now (rolloverPhase now s).1).saves } := rfl

theorem checkBells_lastDay (now : DateTime) (s : Store) :
    (checkBells (some now) s).store.lastDay = now.day := by
  rw [checkBells_some]
  simp [matchPhase_lastDay, rolloverPhase_lastDay]

/-- Core single-tick firing fact: if bell `i` of the active preset
reads `(now.hour, now.minute)` and either its flag is clear or the tick
performs a day rollover (which clears it), the tick pulses that bell
exactly once, sets its flag, and calls `saveData()` at least once. -/
theorem tick_fires (s : Store) (now : DateTime) (i : Nat) (b : Bell)
    (hb : getActiveBell? s i = some b)
    (hh : b.hour = now.hour) (hm : b.minute = now.minute)
    (hf : b.triggeredToday = false ∨ s.lastDay ≠ now.day) :
    ((checkBells (some now) s).pulses.map Prod.fst).count i = 1 ∧
    getActiveBell? (checkBells (some now) s).store i = some { b with triggeredToday := true } ∧
    1 ≤ (checkBells (some now) s).saves := by
  rw [checkBells_some]
  by_cases hday : s.lastDay = now.day
  · have hflag : b.triggeredToday = false := by
      rcases hf with hf | hf
      · exact hf
      · exact absurd hday hf
    rw [rolloverPhase_same hday]
    have hmatch : bellMatches b now.hour now.minute := ⟨hflag, hh, hm⟩
    have hcount := matchPhase_count now hb
    rw [if_pos hmatch] at hcount
    have hget := getActiveBell?_matchPhase now hb
    rw [if_pos hmatch] at hget
    refine ⟨hcount, hget, ?_⟩
    have hmem : i ∈ (matchPhase now s).pulses.map Prod.fst := by
      rw [← List.count_pos_iff, hcount]
      exact Nat.one_pos
    have hlen : 0 < (matchPhase now s).pulses.length := by
      have := List.ne_nil_of_mem hmem
      simpa [List.length_pos] using this
    simp only [matchPhase_saves_eq]
    omega
  · rw [rolloverPhase_diff hday]
    have hb1 : getActiveBell? { s with lastDay := now.day, presets := resetAllTriggers s.presets } i =
        some { b with triggeredToday := false } := by
      rw [getActiveBell?_resetAll, hb]
      rfl
    have hmatch : bellMatches { b with triggeredToday := false } now.hour now.minute :=
      ⟨rfl, hh, hm⟩
    have hcount := matchPhase_count now hb1
    rw [if_pos hmatch] at hcount
    have hget := getActiveBell?_matchPhase now hb1
    rw [if_pos hmatch] at hget
    exact ⟨hcount, hget, by dsimp only; omega⟩

/-- Core no-refire fact: an already-fired bell on a same-day tick is
not pulsed and keeps its state. -/
theorem tick_no_fire (s : Store) (now : DateTime) (i : Nat) (b : Bell)
    (hb : getActiveBell? s i = some b)
    (hf : b.triggeredToday = true) (hday : s.lastDay = now.day) :
    ((checkBells (some now) s).pulses.map Prod.fst).count i = 0 ∧
    getActiveBell? (checkBells (some now) s).store i = some b := by
  rw [checkBells_some, rolloverPhase_same hday]
  have hmatch : ¬ bellMatches b now.hour now.minute := by
    intro hc
    have h1 := hc.1
    rw [hf] at h1
    simp at h1
  have hcount := matchPhase_count now hb
  rw [if_neg hmatch] at hcount
  have hget := getActiveBell?_matchPhase now hb
  rw [if_neg hmatch] at hget
  exact ⟨hcount, hget⟩

/-! ## Lemmas about the emergency state machine -/

/-- Invariant maintained by the emergency machine from activation:
the phase stays in `[0, 9]` and the session only ends at phase 9. -/
def emInv (e : EmergencyState) : Prop :=
  0 ≤ e.emergencyPhase ∧ e.emergencyPhase ≤ 9 ∧
    (e.emergencyActive = false → e.emergencyPhase = 9)

theorem emStep_phase (t : Nat) (e : EmergencyState) :
    (handleEmergency t e).1.emergencyPhase = e.emergencyPhase ∨
    (handleEmergency t e).1.emergencyPhase = e.emergencyPhase + 1 := by
  unfold handleEmergency
  by_cases hlt : e.emergencyPhase < 9
  · rw [if_pos hlt]
    by_cases hp : e.emergencyPhase % 2 = 0
    · rw [if_pos hp]
      by_cases hel : 5000 ≤ t - e.emergencyStartTime
      · rw [if_pos hel]; right; rfl
      · rw [if_neg hel]; left; rfl
    · rw [if_neg hp]
      by_cases hel : 1000 ≤ t - e.emergencyStartTime
      · rw [if_pos hel]; right; rfl
      · rw [if_neg hel]; left; rfl
  · rw [if_neg hlt]; left; rfl

theorem emStep_active_of_lt (t : Nat) (e : EmergencyState) (hlt : e.emergencyPhase < 9) :
    (handleEmergency t e).1.emergencyActive = e.emergencyActive := by
  unfold handleEmergency
  rw [if_pos hlt]
  by_cases hp : e.emergencyPhase % 2 = 0
  · rw [if_pos hp]
    by_cases hel : 5000 ≤ t - e.emergencyStartTime
    · rw [if_pos hel]
    · rw [if_neg hel]
  · rw [if_neg hp]
    by_cases hel : 1000 ≤ t - e.emergencyStartTime
    · rw [if_pos hel]
    · rw [if_neg hel]

theorem emStep_terminal (t : Nat) (e : EmergencyState) (hge : ¬ e.emergencyPhase < 9) :
    handleEmergency t e = ({ e with emergencyActive := false }, false) := by
  unfold handleEmergency
  rw [if_neg hge]

theorem emStep_inv (t : Nat) (e : EmergencyState) (h : emInv e) :
    emInv (handleEmergency t e).1 := by
  obtain ⟨h0, h9, hact⟩ := h
  by_cases hlt : e.emergencyPhase < 9
  · have hactive : e.emergencyActive = true := by
      cases hc : e.emergencyActive
      · exact absurd (hact hc) (by omega)
      · rfl
    have hkeep := emStep_active_of_lt t e hlt
    rcases emStep_phase t e with heq | heq
    · exact ⟨by omega, by omega, fun hf => by rw [hkeep, hactive] at hf; cases hf⟩
    · exact ⟨by omega, by omega, fun hf => by rw [hkeep, hactive] at hf; cases hf⟩
  · rw [emStep_terminal t e hlt]
    exact ⟨h0, by dsimp only; omega, fun _ => by dsimp only; omega⟩

theorem emRun_inv (e : EmergencyState) (ts : List Nat) (h : emInv e) :
    emInv (emRun e ts).1 := by
  induction ts generalizing e with
  | nil => exact h
  | cons t ts ih => exact ih (handleEmergency t e).1 (emStep_inv t e h)

theorem emRun_length (e : EmergencyState) (ts : List Nat) :
    (emRun e ts).2.length = ts.length := by
  induction ts generalizing e with
  | nil => rfl
  | cons t ts ih => simp [emRun, ih]

theorem emRun_phase_eq (e : EmergencyState) (ts : List Nat) :
    (emRun e ts).1.emergencyPhase = e.emergencyPhase + (emTransitions e ts : Int) := by
  induction ts generalizing e with
  | nil => simp [emRun, emTransitions]
  | cons t ts ih =>
    have ih' := ih (handleEmergency t e).1
    rcases emStep_phase t e with heq | heq
    · have hcond : ¬ (handleEmergency t e).1.emergencyPhase ≠ e.emergencyPhase := by
        rw [heq]
        exact fun hc => hc rfl
      simp only [emRun, emTransitions, if_neg hcond]
      rw [ih', heq]
      push_cast
      ring
    · have hcond : (handleEmergency t e).1.emergencyPhase ≠ e.emergencyPhase := by
        rw [heq]
        omega
      simp only [emRun, emTransitions, if_pos hcond]
      rw [ih', heq]
      push_cast
      ring

theorem getLast?_cons_of_ne_nil {α : Type} (o : α) {os : List α} (h : os ≠ []) :
    (o :: os).getLast? = os.getLast? := by
  cases os with
  | nil => exact absurd rfl h
  | cons x xs => rfl

theorem emRun_last_output (e : EmergencyState) (ts : List Nat) (h : emInv e)
    (hend : (emRun e ts).1.emergencyActive = false) (hne : ts ≠ []) :
    ((emRun e ts).2).getLast? = some false := by
  induction ts generalizing e with
  | nil => exact absurd rfl hne
  | cons t ts ih =>
    cases ts with
    | nil =>
      by_cases hlt : e.emergencyPhase < 9
      · exfalso
        have hend' : (handleEmergency t e).1.emergencyActive = false := hend
        rw [emStep_active_of_lt t e hlt] at hend'
        have := h.2.2 hend'
        omega
      · rw [show (emRun e [t]).2 = [(handleEmergency t e).2] from rfl,
            emStep_terminal t e hlt]
        rfl
    | cons t2 ts2 =>
      have hrest : (emRun (handleEmergency t e).1 (t2 :: ts2)).2 ≠ [] := by
        intro hc
        have := emRun_length (handleEmergency t e).1 (t2 :: ts2)
        rw [hc] at this
        simp at this
      have hstep : (emRun e (t :: t2 :: ts2)).2 =
          (handleEmergency t e).2 :: (emRun (handleEmergency t e).1 (t2 :: ts2)).2 := rfl
      rw [hstep, getLast?_cons_of_ne_nil _ hrest]
      exact ih (handleEmergency t e).1 (emStep_inv t e h) hend (by simp)

/-! ## Lemmas about persistence -/

theorem range_map_getD {α β : Type} (l : List α) (f : α → β) (d : α) :
    (List.range l.length).map (fun i => f (l.getD i d)) = l.map f := by
  apply List.ext_getElem?
  intro i
  by_cases hi : i < l.length
  · rw [List.getElem?_map, List.getElem?_map, List.getElem?_range hi,
      List.getElem?_eq_getElem hi]
    show some (f (l.getD i d)) = some (f (l[i]))
    rw [List.getD_eq_getElem l d hi]
  · rw [List.getElem?_map, List.getElem?_map,
      List.getElem?_eq_none (by simpa using Nat.le_of_not_lt hi),
      List.getElem?_eq_none (Nat.le_of_not_lt hi)]
    rfl

theorem loadPreset_save (p : Preset) (h : p.bells.length ≤ MAX_BELLS_PER_PRESET) :
    loadPreset { name := p.name, bellCount := (p.bells.length : Int), bells := p.bells.map fun b => { hour := b.hour, minute := b.minute, triggered := b.triggeredToday } } = p := by
  unfold loadPreset
  dsimp only
  have hmin : min ((p.bells.length : Int)).toNat MAX_BELLS_PER_PRESET = p.bells.length := by
    rw [Int.toNat_ofNat]
    omega
  rw [hmin]
  have hlen : p.bells.length =
      (p.bells.map fun b =>
        ({ hour := b.hour, minute := b.minute, triggered := b.triggeredToday } : BellDoc)).length := by
    rw [List.length_map]
  conv_lhs => rw [hlen, range_map_getD]
  rw [List.map_map]
  have hid : p.bells.map (loadBell ∘ fun b => ({ hour := b.hour, minute := b.minute, triggered := b.triggeredToday } : BellDoc)) = p.bells := by
    apply List.ext_getElem?
    intro i
    rw [List.getElem?_map]
    cases p.bells[i]? <;> rfl
  rw [hid]

/-- Saving the store and reloading the document reproduces the store
verbatim apart from `lastDay`, which is not part of the document. -/
theorem load_save_roundtrip (s : Store) (s0 : Store)
    (h1 : s.presets.length ≤ MAX_PRESETS)
    (h2 : ∀ p ∈ s.presets, p.bells.length ≤ MAX_BELLS_PER_PRESET) :
    loadData (saveData s) s0 = { s with lastDay := s0.lastDay } := by
  unfold loadData saveData
  dsimp only
  have hmin : min ((s.presets.length : Int)).toNat MAX_PRESETS = s.presets.length := by
    rw [Int.toNat_ofNat]
    omega
  rw [hmin]
  have hlen : s.presets.length =
      (s.presets.map fun p => ({ name := p.name, bellCount := (p.bells.length : Int), bells := p.bells.map fun b => { hour := b.hour, minute := b.minute, triggered := b.triggeredToday } } : PresetDoc)).length := by
    rw [List.length_map]
  have hpresets : (List.range s.presets.length).map (fun i =>
      loadPreset ((s.presets.map fun p => ({ name := p.name, bellCount := (p.bells.length : Int), bells := p.bells.map fun b => { hour := b.hour, minute := b.minute, triggered := b.triggeredToday } } : PresetDoc)).getD i nullPresetDoc)) = s.presets := by
    conv_lhs => rw [hlen, range_map_getD]
    rw [List.map_map]
    calc s.presets.map _ = s.presets.map id := by
          apply List.map_congr_left
          intro p hp
          exact loadPreset_save p (h2 p hp)
      _ = s.presets := List.map_id s.presets
  rw [hpresets]

/-! ## Invariant preservation of the CRUD handlers -/

theorem addPreset_inv (s : Store) (name : String) (h : storeInv s) :
    storeInv (handleAddPreset name s).1 := by
  obtain ⟨hl, hb, ha⟩ := h
  unfold handleAddPreset
  by_cases hc1 : MAX_PRESETS ≤ s.presets.length
  · rw [if_pos hc1]
    exact ⟨hl, hb, ha⟩
  · rw [if_neg hc1]
    by_cases hc2 : name.length = 0
    · rw [if_pos hc2]
      exact ⟨hl, hb, ha⟩
    · rw [if_neg hc2]
      refine ⟨?_, ?_, ?_⟩
      · dsimp only
        rw [List.length_append]
        simp only [List.length_singleton]
        omega
      · intro p hp
        dsimp only at hp
        rcases List.mem_append.1 hp with hp | hp
        · exact hb p hp
        · rw [List.mem_singleton] at hp
          subst hp
          simp [MAX_BELLS_PER_PRESET]
      · dsimp only
        rcases ha with ha | ⟨ha1, ha2⟩
        · exact Or.inl ha
        · refine Or.inr ⟨ha1, ?_⟩
          rw [List.length_append]
          push_cast
          omega

theorem deletePreset_inv (s : Store) (id : Int) (h : storeInv s) :
    storeInv (handleDeletePreset id s).1 := by
  obtain ⟨hl, hb, ha⟩ := h
  unfold handleDeletePreset
  by_cases hc : id < 0 ∨ (s.presets.length : Int) ≤ id
  · rw [if_pos hc]
    exact ⟨hl, hb, ha⟩
  · rw [if_neg hc]
    have hlt : id.toNat < s.presets.length := by omega
    have hlen : (s.presets.eraseIdx id.toNat).length + 1 = s.presets.length :=
      List.length_eraseIdx_add_one hlt
    refine ⟨by dsimp only; omega, ?_, ?_⟩
    · intro p hp
      dsimp only at hp
      exact hb p (List.eraseIdx_subset s.presets id.toNat hp)
    · dsimp only
      by_cases he : s.activePresetIndex = id
      · rw [if_pos he]
        exact Or.inl rfl
      · rw [if_neg he]
        by_cases hgt : id < s.activePresetIndex
        · rw [if_pos hgt]
          rcases ha with ha | ⟨ha1, ha2⟩
          · omega
          · refine Or.inr ⟨by omega, by omega⟩
        · rw [if_neg hgt]
          rcases ha with ha | ⟨ha1, ha2⟩
          · exact Or.inl ha
          · refine Or.inr ⟨ha1, by omega⟩

theorem addBell_inv (s : Store) (presetId hour minute : Int) (h : storeInv s) :
    storeInv (handleAddBell presetId hour minute s).1 := by
  obtain ⟨hl, hb, ha⟩ := h
  unfold handleAddBell
  by_cases hc : presetId < 0 ∨ (s.presets.length : Int) ≤ presetId
  · rw [if_pos hc]
    exact ⟨hl, hb, ha⟩
  · rw [if_neg hc]
    have hlt : presetId.toNat < s.presets.length := by omega
    rw [List.getElem?_eq_getElem hlt]
    dsimp only
    by_cases hc2 : MAX_BELLS_PER_PRESET ≤ (s.presets[presetId.toNat]).bells.length
    · rw [if_pos hc2]
      exact ⟨hl, hb, ha⟩
    · rw [if_neg hc2]
      by_cases hc3 : hour < 0 ∨ 23 < hour ∨ minute < 0 ∨ 59 < minute
      · rw [if_pos hc3]
        exact ⟨hl, hb, ha⟩
      · rw [if_neg hc3]
        refine ⟨?_, ?_, ?_⟩
        · dsimp only
          rw [List.length_set]
          exact hl
        · intro p hp
          dsimp only at hp
          rcases List.mem_or_eq_of_mem_set hp with hp | hp
          · exact hb p hp
          · subst hp
            dsimp only
            rw [List.length_append]
            simp only [List.length_singleton]
            omega
        · dsimp only
          rw [List.length_set]
          exact ha

theorem deleteBell_inv (s : Store) (presetId bellId : Int) (h : storeInv s) :
    storeInv (handleDeleteBell presetId bellId s).1 := by
  obtain ⟨hl, hb, ha⟩ := h
  unfold handleDeleteBell
  by_cases hc : presetId < 0 ∨ (s.presets.length : Int) ≤ presetId
  · rw [if_pos hc]
    exact ⟨hl, hb, ha⟩
  · rw [if_neg hc]
    have hlt : presetId.toNat < s.presets.length := by omega
    rw [List.getElem?_eq_getElem hlt]
    dsimp only
    by_cases hc2 : bellId < 0 ∨ ((s.presets[presetId.toNat]).bells.length : Int) ≤ bellId
    · rw [if_pos hc2]
      exact ⟨hl, hb, ha⟩
    · rw [if_neg hc2]
      refine ⟨?_, ?_, ?_⟩
      · dsimp only
        rw [List.length_set]
        exact hl
      · intro p hp
        dsimp only at hp
        rcases List.mem_or_eq_of_mem_set hp with hp | hp
        · exact hb p hp
        · subst hp
          dsimp only
          have hle := List.length_eraseIdx_le (s.presets[presetId.toNat]).bells bellId.toNat
          have hmem := List.getElem_mem hlt
          have := hb _ hmem
          omega
      · dsimp only
        rw [List.length_set]
        exact ha

theorem setActive_inv (s : Store) (id : Int) (h : storeInv s) :
    storeInv (handleSetActive id s).1 := by
  obtain ⟨hl, hb, ha⟩ := h
  unfold handleSetActive
  by_cases hc : id < -1 ∨ (s.presets.length : Int) ≤ id
  · rw [if_pos hc]
    exact ⟨hl, hb, ha⟩
  · rw [if_neg hc]
    refine ⟨hl, hb, ?_⟩
    dsimp only
    by_cases hid : id = -1
    · exact Or.inl hid
    · exact Or.inr ⟨by omega, by omega⟩

theorem setDuration_inv (s : Store) (d : Int) (h : storeInv s) :
    storeInv (handleSetDuration d s).1 := by
  obtain ⟨hl, hb, ha⟩ := h
  unfold handleSetDuration
  by_cases hc : d < 100 ∨ 30000 < d
  · rw [if_pos hc]
    exact ⟨hl, hb, ha⟩
  · rw [if_neg hc]
    exact ⟨hl, hb, ha⟩

/-! ## Concrete states used by witnesses -/

/-- Sample store: one preset, bells at 08:00 and 12:30, active, day 5. -/
def sampleStore : Store :=
  { presets := [{ name := "Weekday",
                  bells := [{ hour := 8, minute := 0, triggeredToday := false },
                            { hour := 12, minute := 30, triggeredToday := false }] }],
    activePresetIndex := 0, lastDay := 5, bellDuration := 3000 }

/-- Sample clock reading: 08:00:00 on day 5. -/
def sampleNow : DateTime :=
  { hour := 8, minute := 0, second := 0, day := 5, month := 1, year := 2025 }

/-- Two empty presets with the second one active. -/
def twoPresetStore : Store :=
  { presets := [{ name := "A", bells := [] }, { name := "B", bells := [] }],
    activePresetIndex := 1, lastDay := 5, bellDuration := 3000 }

/-- A store whose single bell has already rung today (flag set),
saved on day 5. -/
def rungStore : Store :=
  { presets := [{ name := "Morning",
                  bells := [{ hour := 8, minute := 0, triggeredToday := true }] }],
    activePresetIndex := 0, lastDay := 5, bellDuration := 3000 }

/-- System state during an active emergency session. -/
def emergencySys : SysState :=
  { store := sampleStore, em := activateEmergency 0,
    lastEmergencyBtnState := true, lastManualBellState := true,
    displayToggleState := true, lastDisplayToggleState := true, lastDebounceTime := 0 }

/-- Pin samples for a tick with a (debounce-confirmed) manual-bell
press and no other input activity. -/
def manualPressInputs : ButtonInputs :=
  { emergencyRead := true, emergencyRead2 := true,
    manualRead := false, manualRead2 := false, displayRead := true }

/-! ## Claims -/

/-- Claim C1: on a tick whose clock reads `(bell.hour, bell.minute)`
for a bell of the active preset with `triggeredToday = false`, the tick
pulses the relay exactly once for that bell, sets its `triggeredToday`,
and persists the store (at least one `saveData()`); a second tick at
the same reading does not pulse that bell again. -/
theorem claim1_exactly_once (s : Store) (now : DateTime) (i : Nat) (b : Bell)
    (hb : getActiveBell? s i = some b) (hf : b.triggeredToday = false)
    (hh : b.hour = now.hour) (hm : b.minute = now.minute) :
    ((checkBells (some now) s).pulses.map Prod.fst).count i = 1 ∧
    getActiveBell? (checkBells (some now) s).store i = some { b with triggeredToday := true } ∧
    1 ≤ (checkBells (some now) s).saves ∧
    ((checkBells (some now) (checkBells (some now) s).store).pulses.map Prod.fst).count i = 0 ∧
    getActiveBell? (checkBells (some now) (checkBells (some now) s).store).store i =
      some { b with triggeredToday := true } := by
  obtain ⟨h1, h2, h3⟩ := tick_fires s now i b hb hh hm (Or.inl hf)
  obtain ⟨h4, h5⟩ := tick_no_fire (checkBells (some now) s).store now i
    { b with triggeredToday := true } h2 rfl (checkBells_lastDay now s)
  exact ⟨h1, h2, h3, h4, h5⟩

/-- Witness for C1: the 08:00 bell of `sampleStore` at 08:00. -/
theorem claim1_exactly_once_witness :
    ((checkBells (some sampleNow) sampleStore).pulses.map Prod.fst).count 0 = 1 ∧
    getActiveBell? (checkBells (some sampleNow) sampleStore).store 0 =
      some { hour := 8, minute := 0, triggeredToday := true } ∧
    1 ≤ (checkBells (some sampleNow) sampleStore).saves ∧
    ((checkBells (some sampleNow) (checkBells (some sampleNow) sampleStore).store).pulses.map
      Prod.fst).count 0 = 0 ∧
    getActiveBell? (checkBells (some sampleNow)
        (checkBells (some sampleNow) sampleStore).store).store 0 =
      some { hour := 8, minute := 0, triggeredToday := true } :=
  claim1_exactly_once sampleStore sampleNow 0
    { hour := 8, minute := 0, triggeredToday := false } rfl rfl rfl rfl

/-- Claim C3: on a tick whose day differs from `lastDay`, `checkBells`
sets `lastDay := now.day`, clears `triggeredToday` on every bell of
every preset (not only the active one), saves, and evaluates bell
matches only afterwards, on the cleared store. -/
theorem claim3_day_rollover (s : Store) (now : DateTime) (h : s.lastDay ≠ now.day) :
    (rolloverPhase now s).1 =
      { s with lastDay := now.day, presets := resetAllTriggers s.presets } ∧
    (∀ p ∈ (rolloverPhase now s).1.presets, ∀ b ∈ p.bells, b.triggeredToday = false) ∧
    (rolloverPhase now s).1.lastDay = now.day ∧
    checkBells (some now) s =
      { store := (matchPhase now (rolloverPhase now s).1).store,
        pulses := (matchPhase now (rolloverPhase now s).1).pulses,
        saves := 1 + (matchPhase now (rolloverPhase now s).1).saves } ∧
    1 ≤ (checkBells (some now) s).saves := by
  have hro := rolloverPhase_diff h
  refine ⟨by rw [hro], ?_, rolloverPhase_lastDay now s, ?_, ?_⟩
  · intro p hp b hbmem
    rw [hro] at hp
    simp only [resetAllTriggers, List.mem_map] at hp
    obtain ⟨q, _, rfl⟩ := hp
    simp only [List.mem_map] at hbmem
    obtain ⟨c, _, rfl⟩ := hbmem
    rfl
  · rw [checkBells_some, hro]
  · rw [checkBells_some, hro]
    dsimp only
    omega

/-- Witness for C3: `sampleStore` with its flags set, ticked on day 6. -/
theorem claim3_day_rollover_witness :
    (rolloverPhase { hour := 0, minute := 0, second := 0, day := 6, month := 1, year := 2025 }
        sampleStore).1 =
      { sampleStore with lastDay := 6, presets := resetAllTriggers sampleStore.presets } ∧
    (∀ p ∈ (rolloverPhase { hour := 0, minute := 0, second := 0, day := 6, month := 1, year := 2025 }
        sampleStore).1.presets, ∀ b ∈ p.bells, b.triggeredToday = false) ∧
    (rolloverPhase { hour := 0, minute := 0, second := 0, day := 6, month := 1, year := 2025 }
        sampleStore).1.lastDay = 6 ∧
    checkBells (some { hour := 0, minute := 0, second := 0, day := 6, month := 1, year := 2025 })
        sampleStore =
      { store := (matchPhase { hour := 0, minute := 0, second := 0, day := 6, month := 1, year := 2025 }
          (rolloverPhase { hour := 0, minute := 0, second := 0, day := 6, month := 1, year := 2025 }
            sampleStore).1).store,
        pulses := (matchPhase { hour := 0, minute := 0, second := 0, day := 6, month := 1, year := 2025 }
          (rolloverPhase { hour := 0, minute := 0, second := 0, day := 6, month := 1, year := 2025 }
            sampleStore).1).pulses,
        saves := 1 + (matchPhase { hour := 0, minute := 0, second := 0, day := 6, month := 1, year := 2025 }
          (rolloverPhase { hour := 0, minute := 0, second := 0, day := 6, month := 1, year := 2025 }
            sampleStore).1).saves } ∧
    1 ≤ (checkBells (some { hour := 0, minute := 0, second := 0, day := 6, month := 1, year := 2025 })
        sampleStore).saves :=
  claim3_day_rollover sampleStore
    { hour := 0, minute := 0, second := 0, day := 6, month := 1, year := 2025 } (by decide)

/-- Claim C2 as stated is false: `lastDay` is not part of the saved
document, so after a reload into a fresh boot (`lastDay = -1`) the
first same-day tick performs a day rollover that clears the flags, and
a bell whose time matches that tick fires again.  Here the 08:00 bell
of `rungStore` was saved with `triggeredToday = true` on day 5, the
clock still reads day 5, and the first tick after the reload pulses it
again. -/
theorem claim2_counterexample :
    getActiveBell? rungStore 0 = some { hour := 8, minute := 0, triggeredToday := true } ∧
    sampleNow.day = rungStore.lastDay ∧
    (loadData (saveData rungStore) initialStore).lastDay = -1 ∧
    ((checkBells (some sampleNow) (loadData (saveData rungStore) initialStore)).pulses.map
      Prod.fst).count 0 = 1 := by
  decide

/-- Claim C2 amended: loading restores every `triggeredToday` flag
verbatim, but `lastDay` is not persisted and restarts as `-1`, so the
first scheduler tick after a restart — even on the same calendar day —
performs a day rollover that clears all flags, and any bell of the
active preset whose `(hour, minute)` matches that tick fires again
despite having already rung before the restart. -/
theorem claim2_restart_refires (s : Store) (now : DateTime) (i : Nat) (b : Bell)
    (h1 : s.presets.length ≤ MAX_PRESETS)
    (h2 : ∀ p ∈ s.presets, p.bells.length ≤ MAX_BELLS_PER_PRESET)
    (hb : getActiveBell? s i = some b)
    (hh : b.hour = now.hour) (hm : b.minute = now.minute)
    (hday : now.day ≠ -1) :
    getActiveBell? (loadData (saveData s) initialStore) i = some b ∧
    (loadData (saveData s) initialStore).lastDay = -1 ∧
    ((checkBells (some now) (loadData (saveData s) initialStore)).pulses.map
      Prod.fst).count i = 1 := by
  have hload := load_save_roundtrip s initialStore h1 h2
  rw [hload]
  refine ⟨hb, rfl, ?_⟩
  have hfire := tick_fires { s with lastDay := initialStore.lastDay } now i b hb hh hm
    (Or.inr (fun hc => hday (by simpa [initialStore] using hc.symm)))
  exact hfire.1

/-- Witness for the amended C2: `rungStore` reloaded and ticked at
08:00 on day 5. -/
theorem claim2_restart_refires_witness :
    getActiveBell? (loadData (saveData rungStore) initialStore) 0 =
      some { hour := 8, minute := 0, triggeredToday := true } ∧
    (loadData (saveData rungStore) initialStore).lastDay = -1 ∧
    ((checkBells (some sampleNow) (loadData (saveData rungStore) initialStore)).pulses.map
      Prod.fst).count 0 = 1 :=
  claim2_restart_refires rungStore sampleNow 0
    { hour := 8, minute := 0, triggeredToday := true }
    (by decide) (by decide) (by decide) rfl rfl (by decide)

/-- Claim C5 as stated is false in one conjunct: the emergency
controller does not have exclusive ownership of the relay while a
session is active, because the manual-bell branch of `handleButtons`
has no `emergencyActive` guard.  Concretely, with the session of
`emergencySys` active, a tick with a confirmed manual-bell press still
issues a `triggerBell` relay pulse. -/
theorem claim5_counterexample :
    emergencySys.em.emergencyActive = true ∧
    (loopStep 100 manualPressInputs (some sampleNow) emergencySys).1.em.emergencyActive = true ∧
    (loopStep 100 manualPressInputs (some sampleNow) emergencySys).2.manualPulses = [3000] := by
  decide

/-- Claim C5 amended: while a session is active (including the tick it
becomes active), the tick runs `handleEmergency` instead of
`checkBells`: the store is untouched (no `triggeredToday` mutated), no
scheduled pulse occurs, nothing is saved, and the emergency controller
drives the relay; an active session is also never restarted by the
button.  However, a manual-bell press during the session still pulses
the relay via `triggerBell`. -/
theorem claim5_emergency_excludes_scheduler :
    (∀ (t : Nat) (inp : ButtonInputs) (s : SysState),
      s.em.emergencyActive = true → (handleButtons t inp s).1.em = s.em) ∧
    (∀ (t : Nat) (inp : ButtonInputs) (clock : Option DateTime) (s : SysState),
      (handleButtons t inp s).1.em.emergencyActive = true →
        (loopStep t inp clock s).1.store = s.store ∧
        (loopStep t inp clock s).2.scheduledPulses = [] ∧
        (loopStep t inp clock s).2.saves = 0 ∧
        (loopStep t inp clock s).2.emergencyWrite =
          some (handleEmergency t (handleButtons t inp s).1.em).2 ∧
        (loopStep t inp clock s).1.em = (handleEmergency t (handleButtons t inp s).1.em).1) := by
  constructor
  · intro t inp s hact
    unfold handleButtons
    dsimp only
    rw [if_neg]
    intro hc
    rw [hact] at hc
    exact absurd hc.2.2.1 (by simp)
  · intro t inp clock s hact
    unfold loopStep
    rw [if_pos hact]
    exact ⟨rfl, rfl, rfl, rfl, rfl⟩

/-- Witness for the amended C5: the manual-press tick of
`claim5_counterexample` leaves the store alone and schedules nothing. -/
theorem claim5_emergency_excludes_scheduler_witness :
    (handleButtons 100 manualPressInputs emergencySys).1.em = emergencySys.em ∧
    (loopStep 100 manualPressInputs (some sampleNow) emergencySys).1.store =
      emergencySys.store ∧
    (loopStep 100 manualPressInputs (some sampleNow) emergencySys).2.scheduledPulses = [] ∧
    (loopStep 100 manualPressInputs (some sampleNow) emergencySys).2.saves = 0 ∧
    (loopStep 100 manualPressInputs (some sampleNow) emergencySys).2.emergencyWrite =
      some (handleEmergency 100 (handleButtons 100 manualPressInputs emergencySys).1.em).2 ∧
    (loopStep 100 manualPressInputs (some sampleNow) emergencySys).1.em =
      (handleEmergency 100 (handleButtons 100 manualPressInputs emergencySys).1.em).1 :=
  ⟨claim5_emergency_excludes_scheduler.1 100 manualPressInputs emergencySys (by decide),
   (claim5_emergency_excludes_scheduler.2 100 manualPressInputs (some sampleNow) emergencySys
     (by decide)).1,
   (claim5_emergency_excludes_scheduler.2 100 manualPressInputs (some sampleNow) emergencySys
     (by decide)).2.1,
   (claim5_emergency_excludes_scheduler.2 100 manualPressInputs (some sampleNow) emergencySys
     (by decide)).2.2.1,
   (claim5_emergency_excludes_scheduler.2 100 manualPressInputs (some sampleNow) emergencySys
     (by decide)).2.2.2.1,
   (claim5_emergency_excludes_scheduler.2 100 manualPressInputs (some sampleNow) emergencySys
     (by decide)).2.2.2.2⟩

/-- Claim C7: with the clock unavailable the scheduler tick is a
complete no-op (no pulse, no save, no state change), and a later tick
behaves exactly as it would have without the failed tick. -/
theorem claim7_clock_unavailable (s : Store) :
    checkBells none s = { store := s, pulses := [], saves := 0 } ∧
    ∀ clock2, checkBells clock2 (checkBells none s).store = checkBells clock2 s :=
  ⟨rfl, fun _ => rfl⟩

/-- Claim C6: for a valid index, deleting a preset removes it, shifts
the later presets down one slot in order, and adjusts the active
selector: deleting the active preset clears it to `-1`, deleting below
the active index decrements it, deleting above leaves it unchanged. -/
theorem claim6_delete_preset (s : Store) (id : Int)
    (h0 : 0 ≤ id) (h1 : id < (s.presets.length : Int)) :
    (handleDeletePreset id s).2 = true ∧
    (handleDeletePreset id s).1.presets.length + 1 = s.presets.length ∧
    (∀ j : Nat, (j : Int) < id → (handleDeletePreset id s).1.presets[j]? = s.presets[j]?) ∧
    (∀ j : Nat, id ≤ (j : Int) → (handleDeletePreset id s).1.presets[j]? = s.presets[j + 1]?) ∧
    (s.activePresetIndex = id → (handleDeletePreset id s).1.activePresetIndex = -1) ∧
    (id < s.activePresetIndex →
      (handleDeletePreset id s).1.activePresetIndex = s.activePresetIndex - 1) ∧
    (s.activePresetIndex < id →
      (handleDeletePreset id s).1.activePresetIndex = s.activePresetIndex) := by
  have hguard : ¬ (id < 0 ∨ (s.presets.length : Int) ≤ id) := by omega
  unfold handleDeletePreset
  rw [if_neg hguard]
  have hlt : id.toNat < s.presets.length := by omega
  refine ⟨rfl, ?_, ?_, ?_, ?_, ?_, ?_⟩
  · exact List.length_eraseIdx_add_one hlt
  · intro j hj
    exact List.getElem?_eraseIdx_of_lt s.presets id.toNat j (by omega)
  · intro j hj
    exact List.getElem?_eraseIdx_of_ge s.presets id.toNat j (by omega)
  · intro ha
    dsimp only
    rw [if_pos ha]
  · intro ha
    dsimp only
    rw [if_neg (by omega), if_pos ha]
  · intro ha
    dsimp only
    rw [if_neg (by omega), if_neg (by omega)]

/-- Witness for C6: delete index 0 of a two-preset store whose active
index is 1. -/
theorem claim6_delete_preset_witness :
    (handleDeletePreset 0 twoPresetStore).2 = true ∧
    (handleDeletePreset 0 twoPresetStore).1.presets.length + 1 =
      twoPresetStore.presets.length ∧
    (∀ j : Nat, (j : Int) < 0 →
      (handleDeletePreset 0 twoPresetStore).1.presets[j]? = twoPresetStore.presets[j]?) ∧
    (∀ j : Nat, (0 : Int) ≤ (j : Int) →
      (handleDeletePreset 0 twoPresetStore).1.presets[j]? = twoPresetStore.presets[j + 1]?) ∧
    (twoPresetStore.activePresetIndex = 0 →
      (handleDeletePreset 0 twoPresetStore).1.activePresetIndex = -1) ∧
    ((0 : Int) < twoPresetStore.activePresetIndex →
      (handleDeletePreset 0 twoPresetStore).1.activePresetIndex =
        twoPresetStore.activePresetIndex - 1) ∧
    (twoPresetStore.activePresetIndex < 0 →
      (handleDeletePreset 0 twoPresetStore).1.activePresetIndex =
        twoPresetStore.activePresetIndex) :=
  claim6_delete_preset twoPresetStore 0 (by decide) (by decide)

/-- Claim C8: `handleSetDuration` rejects (without clamping) every
duration outside `[100, 30000]` and leaves the store untouched; an
accepted duration is stored, saved, and is what the next pulse uses:
both the scheduled path and the manual path call `triggerBell(0)`,
which resolves `0` to the configured `bellDuration`. -/
theorem claim8_set_duration (s : Store) (d : Int) :
    ((d < 100 ∨ 30000 < d) → handleSetDuration d s = (s, false, 0)) ∧
    (100 ≤ d → d ≤ 30000 →
      handleSetDuration d s = ({ s with bellDuration := d }, true, 1) ∧
      resolvePulseDuration 0 (handleSetDuration d s).1.bellDuration = d ∧
      (∀ now x, x ∈ (checkBells (some now) (handleSetDuration d s).1).pulses → x.2 = d) ∧
      (∀ t inp st, st.store = (handleSetDuration d s).1 →
        ∀ x ∈ (handleButtons t inp st).2, x = d)) := by
  constructor
  · intro hrej
    unfold handleSetDuration
    rw [if_pos hrej]
  · intro hlo hhi
    have hacc : ¬ (d < 100 ∨ 30000 < d) := by omega
    have heq : handleSetDuration d s = ({ s with bellDuration := d }, true, 1) := by
      unfold handleSetDuration
      rw [if_neg hacc]
    refine ⟨heq, ?_, ?_, ?_⟩
    · rw [heq]
      rfl
    · intro now x hx
      rw [heq] at hx
      rw [checkBells_some] at hx
      dsimp only at hx
      have hdur := matchPhase_pulse_duration now (rolloverPhase now ({ s with bellDuration := d })).1 x hx
      rw [rolloverPhase_bellDuration] at hdur
      exact hdur
    · intro t inp st hst x hx
      unfold handleButtons at hx
      dsimp only at hx
      by_cases hpress : inp.manualRead = false ∧ st.lastManualBellState = true ∧ inp.manualRead2 = false
      · rw [if_pos hpress] at hx
        simp only [List.mem_singleton] at hx
        subst hx
        rw [hst, heq]
        rfl
      · rw [if_neg hpress] at hx
        simp at hx

/-- Claim C4: while active, even phases below 9 drive the relay HIGH
and advance exactly when 5000 ms of the phase have elapsed, odd phases
drive it LOW and advance at 1000 ms, and phase 9 forces the relay LOW
and ends the session; consequently any run from activation that ends —
however its ticks are spaced — has made exactly 9 phase transitions,
sits at phase 9, and its last relay write is LOW. -/
theorem claim4_emergency_pattern :
    (∀ (t : Nat) (e : EmergencyState),
      (e.emergencyPhase % 2 = 0 → e.emergencyPhase < 9 →
        (handleEmergency t e).2 = true ∧
        ((handleEmergency t e).1.emergencyPhase = e.emergencyPhase + 1 ↔
          5000 ≤ t - e.emergencyStartTime)) ∧
      (¬ e.emergencyPhase % 2 = 0 → e.emergencyPhase < 9 →
        (handleEmergency t e).2 = false ∧
        ((handleEmergency t e).1.emergencyPhase = e.emergencyPhase + 1 ↔
          1000 ≤ t - e.emergencyStartTime)) ∧
      (¬ e.emergencyPhase < 9 →
        handleEmergency t e = ({ e with emergencyActive := false }, false))) ∧
    (∀ (t0 : Nat) (ts : List Nat),
      (emRun (activateEmergency t0) ts).1.emergencyActive = false →
        emTransitions (activateEmergency t0) ts = 9 ∧
        (emRun (activateEmergency t0) ts).1.emergencyPhase = 9 ∧
        ((emRun (activateEmergency t0) ts).2).getLast? = some false) := by
  constructor
  · intro t e
    refine ⟨?_, ?_, emStep_terminal t e⟩
    · intro hp hlt
      unfold handleEmergency
      rw [if_pos hlt, if_pos hp]
      by_cases hel : 5000 ≤ t - e.emergencyStartTime
      · rw [if_pos hel]
        exact ⟨rfl, iff_of_true rfl hel⟩
      · rw [if_neg hel]
        exact ⟨rfl, iff_of_false (by dsimp only; omega) hel⟩
    · intro hp hlt
      unfold handleEmergency
      rw [if_pos hlt, if_neg hp]
      by_cases hel : 1000 ≤ t - e.emergencyStartTime
      · rw [if_pos hel]
        exact ⟨rfl, iff_of_true rfl hel⟩
      · rw [if_neg hel]
        exact ⟨rfl, iff_of_false (by dsimp only; omega) hel⟩
  · intro t0 ts hend
    have hinv0 : emInv (activateEmergency t0) :=
      ⟨by simp [activateEmergency], by simp [activateEmergency], by simp [activateEmergency]⟩
    have hinv := emRun_inv (activateEmergency t0) ts hinv0
    have hphase9 : (emRun (activateEmergency t0) ts).1.emergencyPhase = 9 := hinv.2.2 hend
    have hphase := emRun_phase_eq (activateEmergency t0) ts
    rw [hphase9] at hphase
    have htrans : emTransitions (activateEmergency t0) ts = 9 := by
      have : (9 : Int) = 0 + (emTransitions (activateEmergency t0) ts : Int) := hphase
      omega
    have hne : ts ≠ [] := by
      intro hc
      subst hc
      rw [show emRun (activateEmergency t0) [] = (activateEmergency t0, []) from rfl] at hend
      exact absurd hend (by simp [activateEmergency])
    exact ⟨htrans, hphase9, emRun_last_output (activateEmergency t0) ts hinv0 hend hne⟩

/-- Witness for C4: a run with one tick per phase boundary plus a final
tick ends the session after exactly 9 transitions with the relay LOW. -/
theorem claim4_emergency_pattern_witness :
    emTransitions (activateEmergency 0)
      [5000, 6000, 11000, 12000, 17000, 18000, 23000, 24000, 29000, 29001] = 9 ∧
    (emRun (activateEmergency 0)
      [5000, 6000, 11000, 12000, 17000, 18000, 23000, 24000, 29000, 29001]).1.emergencyPhase = 9 ∧
    ((emRun (activateEmergency 0)
      [5000, 6000, 11000, 12000, 17000, 18000, 23000, 24000, 29000, 29001]).2).getLast? =
      some false :=
  claim4_emergency_pattern.2 0
    [5000, 6000, 11000, 12000, 17000, 18000, 23000, 24000, 29000, 29001] (by decide)

/-- Claim C9: saving a Schedule Store and reloading the saved document
reproduces the presets (names, bell counts, per-bell hour/minute and
`triggeredToday` verbatim), `activePresetIndex` and `bellDuration`;
only `lastDay` comes from the pre-load globals, as it is not part of
the document. -/
theorem claim9_save_load_roundtrip (s : Store) (s0 : Store)
    (h1 : s.presets.length ≤ MAX_PRESETS)
    (h2 : ∀ p ∈ s.presets, p.bells.length ≤ MAX_BELLS_PER_PRESET) :
    loadData (saveData s) s0 = { s with lastDay := s0.lastDay } :=
  load_save_roundtrip s s0 h1 h2

/-- Claim C10: the empty startup store, every CRUD handler, and loading
back a saved store all leave the Schedule Store satisfying the
invariants (at most 15 presets, at most 15 bells per preset,
`activePresetIndex` either `-1` or a valid index). -/
theorem claim10_invariants (s : Store) (hInv : storeInv s) :
    storeInv initialStore ∧
    (∀ name, storeInv (handleAddPreset name s).1) ∧
    (∀ id, storeInv (handleDeletePreset id s).1) ∧
    (∀ presetId hour minute, storeInv (handleAddBell presetId hour minute s).1) ∧
    (∀ presetId bellId, storeInv (handleDeleteBell presetId bellId s).1) ∧
    (∀ id, storeInv (handleSetActive id s).1) ∧
    (∀ d, storeInv (handleSetDuration d s).1) ∧
    (∀ s0, storeInv (loadData (saveData s) s0)) := by
  refine ⟨by decide, fun name => addPreset_inv s name hInv,
    fun id => deletePreset_inv s id hInv,
    fun presetId hour minute => addBell_inv s presetId hour minute hInv,
    fun presetId bellId => deleteBell_inv s presetId bellId hInv,
    fun id => setActive_inv s id hInv,
    fun d => setDuration_inv s d hInv,
    fun s0 => ?_⟩
  rw [load_save_roundtrip s s0 hInv.1 hInv.2.1]
  exact ⟨hInv.1, hInv.2.1, hInv.2.2⟩

/-- Witness for C10: the handlers applied to `sampleStore` at concrete
arguments. -/
theorem claim10_invariants_witness :
    storeInv (handleAddPreset "Exam" sampleStore).1 ∧
    storeInv (handleDeletePreset 0 sampleStore).1 ∧
    storeInv (handleAddBell 0 9 30 sampleStore).1 ∧
    storeInv (handleDeleteBell 0 0 sampleStore).1 ∧
    storeInv (handleSetActive (-1) sampleStore).1 ∧
    storeInv (handleSetDuration 500 sampleStore).1 ∧
    storeInv (loadData (saveData sampleStore) initialStore) :=
  ⟨(claim10_invariants sampleStore (by decide)).2.1 "Exam",
   (claim10_invariants sampleStore (by decide)).2.2.1 0,
   (claim10_invariants sampleStore (by decide)).2.2.2.1 0 9 30,
   (claim10_invariants sampleStore (by decide)).2.2.2.2.1 0 0,
   (claim10_invariants sampleStore (by decide)).2.2.2.2.2.1 (-1),
   (claim10_invariants sampleStore (by decide)).2.2.2.2.2.2.1 500,
   (claim10_invariants sampleStore (by decide)).2.2.2.2.2.2.2 initialStore⟩

/-- Witness for C9: round trip of `sampleStore` (with a set flag)
through a fresh boot. -/
theorem claim9_save_load_roundtrip_witness :
    loadData (saveData (checkBells (some sampleNow) sampleStore).store) initialStore =
      { (checkBells (some sampleNow) sampleStore).store with lastDay := initialStore.lastDay } :=
  claim9_save_load_roundtrip (checkBells (some sampleNow) sampleStore).store initialStore
    (by decide) (by decide)

/-- Witness for C8: 50 ms is rejected unchanged; 500 ms is accepted,
stored and saved. -/
theorem claim8_set_duration_witness :
    handleSetDuration 50 sampleStore = (sampleStore, false, 0) ∧
    handleSetDuration 500 sampleStore = ({ sampleStore with bellDuration := 500 }, true, 1) ∧
    resolvePulseDuration 0 (handleSetDuration 500 sampleStore).1.bellDuration = 500 :=
  ⟨(claim8_set_duration sampleStore 50).1 (by decide),
   ((claim8_set_duration sampleStore 500).2 (by decide) (by decide)).1,
   ((claim8_set_duration sampleStore 500).2 (by decide) (by decide)).2.1⟩

end SmartBell
